import Mathlib

/-!
Verification of the WebAuthn raw-message decoder in
`src/webauthn/proto/raw_message.rs` (crate `slauth`), as a shallow
embedding in Lean. Bytes are modelled as `Nat`, Rust `Vec<u8>` and fixed
arrays as `List Nat`, the `serde_cbor::Value` document model as an
inductive `Value`, and the mutable `Cursor<Vec<u8>>` as an explicit
record of buffer and position. External library calls (serde_cbor
decoding, serde deserialization of the outer record) are parameters of
the embedded functions. A Rust panic (out-of-bounds slice index) is
modelled by the dedicated result constructor `RunResult.panic`.
-/

/-- Error type of the crate. The source file uses `Error::CborError(e)` and
`Error::Other(String)` directly; the enum itself lives in
`src/webauthn/error.rs`, which is not part of the sources at hand.
`Truncation` is modelled from the spec: it stands for the error a failed
`read_exact` / `read_u8` / `read_u16` / `read_u32` produces (an
`std::io::Error` of kind `UnexpectedEof`, converted into the crate error),
which the spec's error taxonomy names `Truncation`. The payload of
`CborError` is dropped. -/
inductive Error where
  | CborError : Error
  | Truncation : Error
  | Other : String → Error
deriving DecidableEq, Repr

/-- Result of running a piece of Rust code that may panic (`panic`), return
`Err e` (`err e`) or return `Ok a` (`ok a`). -/
inductive RunResult (α : Type) where
  | panic : RunResult α
  | err : Error → RunResult α
  | ok : α → RunResult α
deriving Repr

/-- The `serde_cbor::Value` document model, restricted to the variants the
decoder inspects (`Null`, `Bool`, `Integer`, `Bytes`, `Text`, `Map`); a map
is a list of key-value pairs standing for the `BTreeMap<Value, Value>`. -/
inductive Value where
  | Null : Value
  | Bool : Bool → Value
  | Integer : Int → Value
  | Bytes : List Nat → Value
  | Text : String → Value
  | Map : List (Value × Value) → Value

/-- Lookup `map.get(&Value::Integer(k))` on the embedded map: the value of
the first entry whose key is `Value::Integer(k)`. (A `BTreeMap` has at most
one entry per key; entries with non-integer keys never match.) -/
def getInt (m : List (Value × Value)) (k : Int) : Option Value :=
  match m with
  | [] => none
  | (Value.Integer j, v) :: rest => if j = k then some v else getInt rest k
  | _ :: rest => getInt rest k

/-- Constants from `src/webauthn/proto/constants.rs`. -/
def WEBAUTHN_CHALLENGE_LENGTH : Nat := 32

def WEBAUTHN_CREDENTIAL_ID_LENGTH : Nat := 16

def WEBAUTHN_COSE_ALGORITHM_IDENTIFIER_ES256 : Int := -7

def WEBAUTHN_COSE_ALGORITHM_IDENTIFIER_RS256 : Int := -257

/-- Modelled from the spec: the constant `ECDSA_Y_PREFIX_POSITIVTE` is
imported from `crate::webauthn::proto::constants` but absent from the
`constants.rs` at hand; the spec describes the two sign constants as "the
SEC1 compressed-point prefixes (even-Y / odd-Y)", so the even-Y prefix is
`0x02`. -/
def ECDSA_Y_PREFIX_POSITIVTE : Nat := 2

/-- Modelled from the spec: the odd-Y SEC1 compressed-point prefix `0x03`
(constant `ECDSA_Y_PREFIX_NEGATIVE`, likewise absent from the
`constants.rs` at hand). -/
def ECDSA_Y_PREFIX_NEGATIVE : Nat := 3

/-- The coordinate variants (`enum Coordinates`). -/
inductive Coordinates where
  | Compressed : List Nat → Nat → Coordinates
  | Uncompressed : List Nat → List Nat → Coordinates

/-- `struct CredentialPublicKey`. -/
structure CredentialPublicKey where
  key_type : Int
  alg : Int
  curve : Int
  coords : Coordinates

/-- The closure `|val| match val { Value::Integer(i) => *i as i64, _ => 0i64 }`
applied to the values of the key-type, algorithm and curve entries. -/
def intFieldOrZero (val : Value) : Int :=
  match val with
  | .Integer i => i
  | _ => 0

/-- `CredentialPublicKey::from_value`. A non-map document is replaced by the
empty map. Key-type, algorithm and curve are looked up at integer keys 1, 3
and -1 and coerced to 0 when present but not integers; absence of any of the
five keys is an `Error::Other("... missing")`. The x entry (key -2) must be a
byte string; the Rust `array.copy_from_slice(&i[0..32])` panics when the byte
string is shorter than 32 bytes, which the embedding renders as
`RunResult.panic`, and otherwise takes the first 32 bytes. The y entry
(key -3) is a byte string (same 32-byte slice, same panic) giving
`Coordinates::Uncompressed`, or a boolean selecting one of the two SEC1 sign
prefixes giving `Coordinates::Compressed`; any other shape is reported with
the same message as an absent key. -/
def CredentialPublicKey.from_value (value : Value) : RunResult CredentialPublicKey :=
  let map : List (Value × Value) :=
    match value with
    | .Map m => m
    | _ => []
  match getInt map 1 with
  | none => .err (.Other "Key type missing")
  | some val =>
    let key_type : Int := intFieldOrZero val
    match getInt map 3 with
    | none => .err (.Other "algorithm missing")
    | some val2 =>
      let alg : Int := intFieldOrZero val2
      match getInt map (-1) with
      | none => .err (.Other "curve missing")
      | some val3 =>
        let curve : Int := intFieldOrZero val3
        match getInt map (-2) with
        | none => .err (.Other "x coordinate missing")
        | some valx =>
          match valx with
          | .Bytes i =>
            if 32 ≤ i.length then
              let x : List Nat := i.take 32
              match getInt map (-3) with
              | none => .err (.Other "y coordinate missing")
              | some valy =>
                match valy with
                | .Bytes j =>
                  if 32 ≤ j.length then
                    .ok ⟨key_type, alg, curve, .Uncompressed x (j.take 32)⟩
                  else
                    .panic
                | .Bool b =>
                  .ok ⟨key_type, alg, curve,
                    .Compressed x (if b then ECDSA_Y_PREFIX_NEGATIVE else ECDSA_Y_PREFIX_POSITIVTE)⟩
                | _ => .err (.Other "y coordinate missing")
            else
              .panic
          | _ => .err (.Other "x coordinate missing")

/-- `std::io::Cursor<Vec<u8>>`: the owned buffer and the read position. -/
structure Cursor where
  data : List Nat
  pos : Nat

/-- `Cursor::new(data)`. -/
def Cursor.new (data : List Nat) : Cursor :=
  ⟨data, 0⟩

/-- `bytes::Buf::remaining` for a cursor over a vector: bytes left after the
position. -/
def Cursor.remaining (c : Cursor) : Nat :=
  c.data.length - c.pos

/-- `Read::read_exact` into an `n`-byte buffer: when at least `n` bytes
remain, yield exactly the next `n` bytes and advance; otherwise fail with
the short-read error (spec name `Truncation`). No bytes outside the buffer
are ever produced. -/
def Cursor.read_exact (c : Cursor) (n : Nat) : Except Error (List Nat × Cursor) :=
  if n ≤ c.remaining then
    .ok ((c.data.drop c.pos).take n, ⟨c.data, c.pos + n⟩)
  else
    .error .Truncation

/-- `byteorder::ReadBytesExt::read_u8`: one byte. -/
def Cursor.read_u8 (c : Cursor) : Except Error (Nat × Cursor) :=
  match c.read_exact 1 with
  | .ok (bs, c2) => .ok (bs.headD 0, c2)
  | .error e => .error e

/-- Big-endian value of a byte list, most significant byte first. -/
def beNat (bs : List Nat) : Nat :=
  bs.foldl (fun acc b => acc * 256 + b) 0

/-- `read_u16::<BigEndian>`: two bytes, big-endian. -/
def Cursor.read_u16_be (c : Cursor) : Except Error (Nat × Cursor) :=
  match c.read_exact 2 with
  | .ok (bs, c2) => .ok (beNat bs, c2)
  | .error e => .error e

/-- `read_u32::<BigEndian>`: four bytes, big-endian. -/
def Cursor.read_u32_be (c : Cursor) : Except Error (Nat × Cursor) :=
  match c.read_exact 4 with
  | .ok (bs, c2) => .ok (beNat bs, c2)
  | .error e => .error e

/-- `struct AttestedCredentialData`. -/
structure AttestedCredentialData where
  aaguid : List Nat
  credential_id : List Nat
  credential_public_key : CredentialPublicKey

/-- `struct AuthenticatorData`. -/
structure AuthenticatorData where
  rp_id_hash : List Nat
  flags : Nat
  sign_count : Nat
  attested_credential_data : Option AttestedCredentialData
  extensions : Value

/-- `AuthenticatorData::from_vec`. `cborDecode` stands for
`serde_cbor::from_slice::<serde_cbor::Value>` (an external library call),
with `none` for a decode error. The function reads 32 bytes of `rp_id_hash`,
one flags byte and a 4-byte big-endian `sign_count`; when more than 16 bytes
remain it reads a 16-byte `aaguid`, a 2-byte big-endian length, that many
bytes of `credential_id`, decodes every remaining byte as a document and
extracts the credential public key from it. The second component of a
successful result is `cursor.into_inner()`: the whole original buffer. -/
def AuthenticatorData.from_vec (cborDecode : List Nat → Option Value) (data : List Nat) :
    RunResult (AuthenticatorData × List Nat) :=
  let cursor := Cursor.new data
  match cursor.read_exact 32 with
  | .error e => .err e
  | .ok (rp_id_hash, cursor) =>
    match cursor.read_u8 with
    | .error e => .err e
    | .ok (flags, cursor) =>
      match cursor.read_u32_be with
      | .error e => .err e
      | .ok (sign_count, cursor) =>
        if cursor.remaining > 16 then
          match cursor.read_exact 16 with
          | .error e => .err e
          | .ok (aaguid, cursor) =>
            match cursor.read_u16_be with
            | .error e => .err e
            | .ok (length, cursor) =>
              match cursor.read_exact length with
              | .error e => .err e
              | .ok (credential_id, cursor) =>
                match cursor.read_exact cursor.remaining with
                | .error e => .err e
                | .ok (remaining, cursor) =>
                  match cborDecode remaining with
                  | none => .err .CborError
                  | some remaining_value =>
                    match CredentialPublicKey.from_value remaining_value with
                    | .panic => .panic
                    | .err e => .err e
                    | .ok credential_public_key =>
                      .ok (⟨rp_id_hash, flags, sign_count,
                            some ⟨aaguid, credential_id, credential_public_key⟩,
                            .Null⟩, cursor.data)
        else
          .ok (⟨rp_id_hash, flags, sign_count, none, .Null⟩, cursor.data)

/-- `struct AttestationStatement` (pass-through, not validated here). -/
structure AttestationStatement where
  alg : Int
  sig : List Nat
  x5c : Option Value
  ecdaa_key_id : Option Value

/-- `struct RawAttestationObject`: the outer record as deserialized by serde
(`auth_data` still an undecoded document value). -/
structure RawAttestationObject where
  auth_data : Value
  fmt : String
  att_stmt : AttestationStatement

/-- `struct AttestationObject`. -/
structure AttestationObject where
  auth_data : AuthenticatorData
  raw_auth_data : List Nat
  fmt : String
  att_stmt : AttestationStatement

/-- `<AttestationObject as Message>::from_bytes`. `outerDecode` stands for
`serde_cbor::from_slice::<RawAttestationObject>` (external serde machinery),
with `none` for a decode error; `cborDecode` is passed on to
`AuthenticatorData::from_vec`. The `auth_data` field must be a byte string,
otherwise the decoder fails with `Error::Other("Cannot proceed without auth
data")`. -/
def AttestationObject.from_bytes (outerDecode : List Nat → Option RawAttestationObject)
    (cborDecode : List Nat → Option Value) (raw_values : List Nat) :
    RunResult AttestationObject :=
  match outerDecode raw_values with
  | none => .err .CborError
  | some value =>
    match value.auth_data with
    | .Bytes vec =>
      match AuthenticatorData.from_vec cborDecode vec with
      | .panic => .panic
      | .err e => .err e
      | .ok (auth_data, raw_auth_data) =>
        .ok ⟨auth_data, raw_auth_data, value.fmt, value.att_stmt⟩
    | _ => .err (.Other "Cannot proceed without auth data")

/-- Shape test corresponding to the Rust match arm `Value::Map(m)`. -/
def valueIsMap (v : Value) : Bool :=
  match v with
  | .Map _ => true
  | _ => false

/-- Shape test corresponding to the Rust match arm `Value::Bytes(vec)`. -/
def valueIsBytes (v : Value) : Bool :=
  match v with
  | .Bytes _ => true
  | _ => false

/-- Shape test corresponding to the Rust match arm `Value::Bool(b)`. -/
def valueIsBool (v : Value) : Bool :=
  match v with
  | .Bool _ => true
  | _ => false

/-- A complete COSE public-key document with a 32-byte x coordinate and the
given y entry, used to instantiate the extraction theorems. -/
def pkMap (yv : Value) : List (Value × Value) :=
  [(.Integer 1, .Integer 2), (.Integer 3, .Integer (-7)), (.Integer (-1), .Integer 1),
   (.Integer (-2), .Bytes (List.replicate 32 7)), (.Integer (-3), yv)]

/-- A 56-byte authenticator-data buffer whose 2-byte credential-id length
prefix (bytes 53 and 54) declares 5 bytes while only 1 byte follows. -/
def c6buf : List Nat :=
  List.replicate 53 0 ++ [0, 5, 9]

/-- An outer decode result whose `auth_data` field is `Null` (not a byte
string), for exercising the `from_bytes` failure path. -/
def outerDecodeNull : List Nat → Option RawAttestationObject :=
  fun _ => some ⟨.Null, "packed", ⟨-7, [], none, none⟩⟩

/-- Reading one byte at position `n` of a buffer yields the `n`-th element. -/
lemma take_one_headD (l : List Nat) (n : Nat) (d : Nat) :
    ((l.drop n).take 1).headD d = l.getD n d := by
  induction l generalizing n with
  | nil => simp [List.getD]
  | cons a t ih =>
    cases n with
    | zero => simp
    | succ m => simpa using ih m

/-- Variant of the one-byte read equation in terms of optional indexing. -/
lemma take_one_head? (l : List Nat) (n : Nat) :
    (List.take 1 (List.drop n l)).head? = l[n]? := by
  induction l generalizing n with
  | nil => simp
  | cons a t ih =>
    cases n with
    | zero => simp
    | succ m => simpa using ih m

/-- Taking all remaining elements after a drop is the drop itself. -/
lemma take_sub_drop (l : List Nat) (m : Nat) : (l.drop m).take (l.length - m) = l.drop m := by
  rw [← List.length_drop, List.take_length]

/-- Closed form of `AuthenticatorData.from_vec`: the cursor walk expressed
directly in terms of the input buffer and its length. -/
lemma from_vec_eq (cb : List Nat → Option Value) (data : List Nat) :
    AuthenticatorData.from_vec cb data =
      if 32 ≤ data.length then
        if 33 ≤ data.length then
          if 37 ≤ data.length then
            if 16 < data.length - 37 then
              if 55 ≤ data.length then
                if 55 + beNat ((data.drop 53).take 2) ≤ data.length then
                  match cb (data.drop (55 + beNat ((data.drop 53).take 2))) with
                  | none => .err .CborError
                  | some v =>
                    match CredentialPublicKey.from_value v with
                    | .panic => .panic
                    | .err e => .err e
                    | .ok cpk =>
                      .ok (⟨data.take 32, data.getD 32 0, beNat ((data.drop 33).take 4),
                            some ⟨(data.drop 37).take 16,
                                  (data.drop 55).take (beNat ((data.drop 53).take 2)), cpk⟩,
                            .Null⟩, data)
                else .err .Truncation
              else .err .Truncation
            else
              .ok (⟨data.take 32, data.getD 32 0, beNat ((data.drop 33).take 4), none, .Null⟩,
                   data)
          else .err .Truncation
        else .err .Truncation
      else .err .Truncation := by
  simp only [AuthenticatorData.from_vec, Cursor.new, Cursor.read_u8, Cursor.read_u16_be,
    Cursor.read_u32_be, Cursor.read_exact, Cursor.remaining, Nat.sub_zero, List.drop_zero]
  by_cases h32 : 32 ≤ data.length
  · simp only [if_pos h32]
    by_cases h33 : 33 ≤ data.length
    · have e1 : 1 ≤ data.length - (0 + 32) := by omega
      simp only [e1, if_pos, if_true, Nat.zero_add]
      by_cases h37 : 37 ≤ data.length
      · have e4 : 4 ≤ data.length - 33 := by omega
        simp only [show (32 : Nat) + 1 = 33 from rfl, e4, if_pos, if_true]
        by_cases h53 : 16 < data.length - 37
        · have e16 : 16 ≤ data.length - 37 := by omega
          simp only [show (33 : Nat) + 4 = 37 from rfl, gt_iff_lt, if_pos h53, e16, if_true,
            take_one_headD]
          by_cases h55 : 55 ≤ data.length
          · have e2 : 2 ≤ data.length - (37 + 16) := by omega
            simp only [show (37 : Nat) + 16 = 53 from rfl, e2, if_pos, if_true]
            by_cases hL : 55 + beNat ((data.drop 53).take 2) ≤ data.length
            · have eL : beNat ((data.drop 53).take 2) ≤ data.length - (53 + 2) := by omega
              simp only [show (53 : Nat) + 2 = 55 from rfl, eL, if_pos, if_true, le_refl,
                take_sub_drop, if_pos hL]
              rw [if_pos h33, if_pos h37, if_pos h55]
            · have eL : ¬ beNat ((data.drop 53).take 2) ≤ data.length - (53 + 2) := by omega
              simp only [show (53 : Nat) + 2 = 55 from rfl, eL, if_neg, if_false, hL]
              simp [h33, h37, h55]
          · have e2 : ¬ 2 ≤ data.length - (37 + 16) := by omega
            simp only [show (37 : Nat) + 16 = 53 from rfl, e2, if_neg, if_false, h55]
            simp [h33, h37, h55]
        · simp only [show (33 : Nat) + 4 = 37 from rfl, gt_iff_lt, if_neg h53, take_one_headD]
          rw [if_pos h33, if_pos h37]
      · have e4 : ¬ 4 ≤ data.length - 33 := by omega
        simp only [show (32 : Nat) + 1 = 33 from rfl, e4, if_neg, if_false, h37]
        simp [h33, h37]
    · have e1 : ¬ 1 ≤ data.length - (0 + 32) := by omega
      simp only [e1, if_neg, if_false, h33]
  · simp only [if_neg h32]

/-- Inversion of a successful `AuthenticatorData::from_vec`: the returned
buffer is the original input, the three fixed fields are the bytes at their
fixed offsets, the attested block is present exactly when more than 16 bytes
remain after the first 37, and a present attested block carries the aaguid,
the length-prefixed credential id, and a public key extracted from the
decoded trailing document. -/
lemma from_vec_ok_inv (cb : List Nat → Option Value) (data : List Nat)
    (ad : AuthenticatorData) (raw : List Nat)
    (h : AuthenticatorData.from_vec cb data = .ok (ad, raw)) :
    raw = data ∧ 37 ≤ data.length ∧ ad.rp_id_hash = data.take 32 ∧
    ad.flags = data.getD 32 0 ∧ ad.sign_count = beNat ((data.drop 33).take 4) ∧
    (ad.attested_credential_data.isSome ↔ 16 < data.length - 37) ∧
    (∀ acd, ad.attested_credential_data = some acd →
       acd.aaguid = (data.drop 37).take 16 ∧
       acd.credential_id = (data.drop 55).take (beNat ((data.drop 53).take 2)) ∧
       55 + beNat ((data.drop 53).take 2) ≤ data.length ∧
       ∃ v, cb (data.drop (55 + beNat ((data.drop 53).take 2))) = some v ∧
         CredentialPublicKey.from_value v = .ok acd.credential_public_key) := by
  rw [from_vec_eq] at h
  split_ifs at h with h32 h33 h37 h53 h55 hL
  · split at h
    · simp at h
    · rename_i v hcb
      split at h
      · simp at h
      · simp at h
      · rename_i cpk hfv
        simp only [RunResult.ok.injEq, Prod.mk.injEq] at h
        obtain ⟨had, hraw⟩ := h
        subst had
        subst hraw
        refine ⟨rfl, h37, rfl, rfl, rfl, by simp [h53], ?_⟩
        intro acd hacd
        simp only [Option.some.injEq] at hacd
        subst hacd
        exact ⟨rfl, rfl, hL, v, hcb, hfv⟩
  · simp only [RunResult.ok.injEq, Prod.mk.injEq] at h
    obtain ⟨had, hraw⟩ := h
    subst had
    subst hraw
    refine ⟨rfl, h37, rfl, rfl, rfl, by simp [h53], ?_⟩
    intro acd hacd
    simp at hacd

/-- C1: for every input byte sequence shorter than 37 bytes,
`AuthenticatorData::from_vec` fails with the `Truncation` error, and each of
the three fixed-field reads (32-byte rpIdHash at offset 0, 1-byte flags at
offset 32, 4-byte big-endian signCount at offset 33) is total over the
arbitrary buffer: it either reports `Truncation` or yields exactly the
in-bounds bytes at its offset, so no read ever goes out of bounds. -/
theorem claim_C1 (cb : List Nat → Option Value) (data : List Nat) (h : data.length < 37) :
    AuthenticatorData.from_vec cb data = .err .Truncation ∧
    (Cursor.read_exact ⟨data, 0⟩ 32 = .error .Truncation ∨
      Cursor.read_exact ⟨data, 0⟩ 32 = .ok (data.take 32, ⟨data, 32⟩)) ∧
    (Cursor.read_u8 ⟨data, 32⟩ = .error .Truncation ∨
      Cursor.read_u8 ⟨data, 32⟩ = .ok (data.getD 32 0, ⟨data, 33⟩)) ∧
    (Cursor.read_u32_be ⟨data, 33⟩ = .error .Truncation ∨
      Cursor.read_u32_be ⟨data, 33⟩ = .ok (beNat ((data.drop 33).take 4), ⟨data, 37⟩)) := by
  refine ⟨?_, ?_, ?_, ?_⟩
  · rw [from_vec_eq]
    split_ifs <;> first | rfl | omega
  · by_cases hc : 32 ≤ data.length
    · right
      simp [Cursor.read_exact, Cursor.remaining, hc]
    · left
      simp [Cursor.read_exact, Cursor.remaining, hc]
  · by_cases hc : 1 ≤ data.length - 32
    · right
      simp [Cursor.read_u8, Cursor.read_exact, Cursor.remaining, hc, take_one_head?]
    · left
      simp [Cursor.read_u8, Cursor.read_exact, Cursor.remaining, hc]
  · by_cases hc : 4 ≤ data.length - 33
    · right
      simp [Cursor.read_u32_be, Cursor.read_exact, Cursor.remaining, hc]
    · left
      simp [Cursor.read_u32_be, Cursor.read_exact, Cursor.remaining, hc]

/-- C1 witness: the empty input is shorter than 37 bytes and the theorem
evaluates on it. -/
theorem claim_C1_witness :
    ([] : List Nat).length < 37 ∧
    (AuthenticatorData.from_vec (fun _ => none) [] = .err .Truncation ∧
     (Cursor.read_exact ⟨[], 0⟩ 32 = .error .Truncation ∨
       Cursor.read_exact ⟨[], 0⟩ 32 = .ok (([] : List Nat).take 32, ⟨[], 32⟩)) ∧
     (Cursor.read_u8 ⟨[], 32⟩ = .error .Truncation ∨
       Cursor.read_u8 ⟨[], 32⟩ = .ok (([] : List Nat).getD 32 0, ⟨[], 33⟩)) ∧
     (Cursor.read_u32_be ⟨[], 33⟩ = .error .Truncation ∨
       Cursor.read_u32_be ⟨[], 33⟩ = .ok (beNat ((([] : List Nat).drop 33).take 4), ⟨[], 37⟩))) :=
  ⟨by simp, claim_C1 (fun _ => none) [] (by simp)⟩

/-- C3: whenever `AuthenticatorData::from_vec` succeeds, the second component
of the returned pair is the entire original input buffer, byte for byte,
regardless of how much of it the parse structurally consumed. -/
theorem claim_C3 (cb : List Nat → Option Value) (data : List Nat)
    (ad : AuthenticatorData) (raw : List Nat)
    (h : AuthenticatorData.from_vec cb data = .ok (ad, raw)) :
    raw = data :=
  (from_vec_ok_inv cb data ad raw h).1

/-- C3 witness: a successful 37-byte parse returns the original buffer. -/
theorem claim_C3_witness :
    AuthenticatorData.from_vec (fun _ => none) (List.replicate 37 (0 : Nat)) =
      .ok (⟨List.replicate 32 0, 0, 0, none, .Null⟩, List.replicate 37 0) ∧
    List.replicate 37 (0 : Nat) = List.replicate 37 (0 : Nat) :=
  ⟨rfl, claim_C3 (fun _ => none) (List.replicate 37 0)
    ⟨List.replicate 32 0, 0, 0, none, .Null⟩ (List.replicate 37 0) rfl⟩

/-- C8: for every input of at least 37 bytes accepted by
`AuthenticatorData::from_vec`, rpIdHash is bytes 0..32 of the input, flags is
byte 32, and signCount is the big-endian 32-bit integer formed by bytes
33..37. -/
theorem claim_C8 (cb : List Nat → Option Value) (data : List Nat)
    (ad : AuthenticatorData) (raw : List Nat) (h37 : 37 ≤ data.length)
    (h : AuthenticatorData.from_vec cb data = .ok (ad, raw)) :
    ad.rp_id_hash = data.take 32 ∧ ad.flags = data.getD 32 0 ∧
    ad.sign_count = beNat ((data.drop 33).take 4) := by
  have inv := from_vec_ok_inv cb data ad raw h
  exact ⟨inv.2.2.1, inv.2.2.2.1, inv.2.2.2.2.1⟩

/-- C8 witness: the bytes 0,1,...,36 parse to rpIdHash 0..31, flags 32 and
signCount 0x21222324 in decimal. -/
theorem claim_C8_witness :
    37 ≤ (List.range 37).length ∧
    AuthenticatorData.from_vec (fun _ => none) (List.range 37) =
      .ok (⟨List.range 32, 32, 555885348, none, .Null⟩, List.range 37) ∧
    ((⟨List.range 32, 32, 555885348, none, .Null⟩ : AuthenticatorData).rp_id_hash =
        (List.range 37).take 32 ∧
      (⟨List.range 32, 32, 555885348, none, .Null⟩ : AuthenticatorData).flags =
        (List.range 37).getD 32 0 ∧
      (⟨List.range 32, 32, 555885348, none, .Null⟩ : AuthenticatorData).sign_count =
        beNat (((List.range 37).drop 33).take 4)) :=
  ⟨by simp, rfl, claim_C8 (fun _ => none) (List.range 37)
    ⟨List.range 32, 32, 555885348, none, .Null⟩ (List.range 37) (by simp) rfl⟩

/-- C5: for any input of at least 37 bytes, an attested-credential block is
parsed (present in a successful result) if and only if strictly more than 16
bytes remain after the 37 fixed bytes; every exactly-37-byte input parses
successfully with `attested_credential_data = none`; and the decision is
unchanged when the flags byte (byte 32) is replaced by any other value, so it
depends only on the remaining byte count and on no bit of `flags`. -/
theorem claim_C5 (cb : List Nat → Option Value) (data : List Nat) (h37 : 37 ≤ data.length) :
    (∀ ad raw, AuthenticatorData.from_vec cb data = .ok (ad, raw) →
       (ad.attested_credential_data.isSome ↔ 16 < data.length - 37)) ∧
    (data.length = 37 →
       AuthenticatorData.from_vec cb data =
         .ok (⟨data.take 32, data.getD 32 0, beNat ((data.drop 33).take 4), none, .Null⟩,
              data)) ∧
    (∀ b ad ad2 raw raw2, AuthenticatorData.from_vec cb data = .ok (ad, raw) →
       AuthenticatorData.from_vec cb (data.set 32 b) = .ok (ad2, raw2) →
       ad.attested_credential_data.isSome = ad2.attested_credential_data.isSome) := by
  refine ⟨?_, ?_, ?_⟩
  · intro ad raw h
    exact (from_vec_ok_inv cb data ad raw h).2.2.2.2.2.1
  · intro h37eq
    rw [from_vec_eq]
    rw [if_pos (show 32 ≤ data.length by omega)]
    rw [if_pos (show 33 ≤ data.length by omega)]
    rw [if_pos (show 37 ≤ data.length by omega)]
    rw [if_neg (show ¬ 16 < data.length - 37 by omega)]
  · intro b ad ad2 raw raw2 h1 h2
    have i1 := (from_vec_ok_inv cb data ad raw h1).2.2.2.2.2.1
    have i2 := (from_vec_ok_inv cb (data.set 32 b) ad2 raw2 h2).2.2.2.2.2.1
    rw [List.length_set] at i2
    by_cases hp : 16 < data.length - 37
    · rw [i1.mpr hp, i2.mpr hp]
    · have e1 : ad.attested_credential_data.isSome = false := by
        cases hb : ad.attested_credential_data.isSome with
        | true => exact absurd (i1.mp hb) hp
        | false => rfl
      have e2 : ad2.attested_credential_data.isSome = false := by
        cases hb : ad2.attested_credential_data.isSome with
        | true => exact absurd (i2.mp hb) hp
        | false => rfl
      rw [e1, e2]

/-- C5 witness: the theorem evaluated on the all-zero 37-byte buffer. -/
theorem claim_C5_witness :
    37 ≤ (List.replicate 37 (0 : Nat)).length ∧
    ((∀ ad raw,
        AuthenticatorData.from_vec (fun _ => none) (List.replicate 37 (0 : Nat)) =
          .ok (ad, raw) →
        (ad.attested_credential_data.isSome ↔
          16 < (List.replicate 37 (0 : Nat)).length - 37)) ∧
     ((List.replicate 37 (0 : Nat)).length = 37 →
        AuthenticatorData.from_vec (fun _ => none) (List.replicate 37 (0 : Nat)) =
          .ok (⟨(List.replicate 37 (0 : Nat)).take 32, (List.replicate 37 (0 : Nat)).getD 32 0,
                beNat (((List.replicate 37 (0 : Nat)).drop 33).take 4), none, .Null⟩,
               List.replicate 37 (0 : Nat))) ∧
     (∀ b ad ad2 raw raw2,
        AuthenticatorData.from_vec (fun _ => none) (List.replicate 37 (0 : Nat)) =
          .ok (ad, raw) →
        AuthenticatorData.from_vec (fun _ => none) ((List.replicate 37 (0 : Nat)).set 32 b) =
          .ok (ad2, raw2) →
        ad.attested_credential_data.isSome = ad2.attested_credential_data.isSome)) :=
  ⟨by simp, claim_C5 (fun _ => none) (List.replicate 37 0) (by simp)⟩

/-- C6: in the attested-credential path, the credentialId read consumes
exactly the number of bytes declared by the preceding 2-byte big-endian
length prefix (bytes 53..55): a buffer that ends mid-credential-id fails with
`Truncation`, and a successful parse yields a credential id equal to exactly
that many bytes starting at offset 55. -/
theorem claim_C6 (cb : List Nat → Option Value) (data : List Nat) (L : Nat)
    (hL : L = beNat ((data.drop 53).take 2)) (h53 : 53 < data.length) :
    (55 ≤ data.length → data.length < 55 + L →
       AuthenticatorData.from_vec cb data = .err .Truncation) ∧
    (∀ ad raw acd, AuthenticatorData.from_vec cb data = .ok (ad, raw) →
       ad.attested_credential_data = some acd →
       acd.credential_id = (data.drop 55).take L ∧ acd.credential_id.length = L) := by
  subst hL
  constructor
  · intro h55 hlt
    rw [from_vec_eq]
    rw [if_pos (show 32 ≤ data.length by omega)]
    rw [if_pos (show 33 ≤ data.length by omega)]
    rw [if_pos (show 37 ≤ data.length by omega)]
    rw [if_pos (show 16 < data.length - 37 by omega)]
    rw [if_pos h55]
    rw [if_neg (show ¬ 55 + beNat ((data.drop 53).take 2) ≤ data.length by omega)]
  · intro ad raw acd h hacd
    have inv := (from_vec_ok_inv cb data ad raw h).2.2.2.2.2.2 acd hacd
    refine ⟨inv.2.1, ?_⟩
    rw [inv.2.1, List.length_take, List.length_drop]
    have hle := inv.2.2.1
    omega

/-- C6 witness: a 56-byte buffer whose length prefix declares 5 bytes of
credential id while only 1 byte follows fails with `Truncation`. -/
theorem claim_C6_witness :
    (5 : Nat) = beNat ((c6buf.drop 53).take 2) ∧
    53 < c6buf.length ∧
    ((55 ≤ c6buf.length → c6buf.length < 55 + 5 →
        AuthenticatorData.from_vec (fun _ => none) c6buf = .err .Truncation) ∧
     (∀ ad raw acd, AuthenticatorData.from_vec (fun _ => none) c6buf = .ok (ad, raw) →
        ad.attested_credential_data = some acd →
        acd.credential_id = (c6buf.drop 55).take 5 ∧ acd.credential_id.length = 5)) :=
  ⟨rfl, by simp [c6buf], claim_C6 (fun _ => none) c6buf 5 rfl (by simp [c6buf])⟩

/-- C2: the code, not the claim, is at fault for the short-x case. On a
public-key document whose x entry (key -2) is a 31-byte byte string while
every other required key is present, `CredentialPublicKey::from_value`
evaluates `array.copy_from_slice(&i[0..32])`, whose slice index `i[0..32]`
is out of bounds for a 31-byte vector, so the Rust code panics (aborts)
instead of failing with the `MalformedInput` error the claim and spec
require. The theorem evaluates the embedding at that failing input and
records the panic. (The other two parts of the claim hold: an absent x key
yields the missing-field error, and an x byte string of at least 32 bytes
contributes exactly its first 32 bytes; see the proof of C4.) -/
theorem claim_C2_eval :
    CredentialPublicKey.from_value (.Map [(.Integer 1, .Integer 2), (.Integer 3, .Integer (-7)),
      (.Integer (-1), .Integer 1), (.Integer (-2), .Bytes (List.replicate 31 0)),
      (.Integer (-3), .Bool false)]) = .panic := rfl

/-- C4: given a map whose key-type, algorithm, curve and x entries all
resolve (x a byte string of at least 32 bytes), the y entry (key -3)
determines the coordinate variant: a byte string of at least 32 bytes gives
`Uncompressed` with y its first 32 bytes; a boolean gives `Compressed` with
the sign byte one of the two fixed SEC1 prefix constants (2 for even-Y,
3 for odd-Y) chosen by the boolean; any other shape, or absence of the key,
fails with the missing-field error for y. -/
theorem claim_C4 (m : List (Value × Value)) (v1 v3 vc : Value) (xbs : List Nat)
    (h1 : getInt m 1 = some v1) (h3 : getInt m 3 = some v3)
    (hc : getInt m (-1) = some vc) (hx : getInt m (-2) = some (.Bytes xbs))
    (hxl : 32 ≤ xbs.length) :
    (∀ ybs : List Nat, getInt m (-3) = some (.Bytes ybs) → 32 ≤ ybs.length →
      CredentialPublicKey.from_value (.Map m) =
        .ok ⟨intFieldOrZero v1, intFieldOrZero v3, intFieldOrZero vc,
             .Uncompressed (xbs.take 32) (ybs.take 32)⟩) ∧
    (∀ b : Bool, getInt m (-3) = some (.Bool b) →
      CredentialPublicKey.from_value (.Map m) =
        .ok ⟨intFieldOrZero v1, intFieldOrZero v3, intFieldOrZero vc,
             .Compressed (xbs.take 32)
               (if b then ECDSA_Y_PREFIX_NEGATIVE else ECDSA_Y_PREFIX_POSITIVTE)⟩) ∧
    (ECDSA_Y_PREFIX_POSITIVTE = 2 ∧ ECDSA_Y_PREFIX_NEGATIVE = 3) ∧
    (∀ yv : Value, getInt m (-3) = some yv → valueIsBytes yv = false →
      valueIsBool yv = false →
      CredentialPublicKey.from_value (.Map m) = .err (.Other "y coordinate missing")) ∧
    (getInt m (-3) = none →
      CredentialPublicKey.from_value (.Map m) = .err (.Other "y coordinate missing")) := by
  refine ⟨?_, ?_, ⟨rfl, rfl⟩, ?_, ?_⟩
  · intro ybs hy hyl
    simp [CredentialPublicKey.from_value, h1, h3, hc, hx, hxl, hy, hyl]
  · intro b hy
    simp [CredentialPublicKey.from_value, h1, h3, hc, hx, hxl, hy]
  · intro yv hy hb1 hb2
    cases yv with
    | Null => simp [CredentialPublicKey.from_value, h1, h3, hc, hx, hxl, hy]
    | Bool b => simp [valueIsBool] at hb2
    | Integer i => simp [CredentialPublicKey.from_value, h1, h3, hc, hx, hxl, hy]
    | Bytes bs => simp [valueIsBytes] at hb1
    | Text s => simp [CredentialPublicKey.from_value, h1, h3, hc, hx, hxl, hy]
    | Map mm => simp [CredentialPublicKey.from_value, h1, h3, hc, hx, hxl, hy]
  · intro hy
    simp [CredentialPublicKey.from_value, h1, h3, hc, hx, hxl, hy]

/-- C4 witness: the theorem evaluated on a complete document whose y entry
is the boolean `false`. -/
theorem claim_C4_witness :
    getInt (pkMap (.Bool false)) 1 = some (.Integer 2) ∧
    getInt (pkMap (.Bool false)) 3 = some (.Integer (-7)) ∧
    getInt (pkMap (.Bool false)) (-1) = some (.Integer 1) ∧
    getInt (pkMap (.Bool false)) (-2) = some (.Bytes (List.replicate 32 7)) ∧
    32 ≤ (List.replicate 32 (7 : Nat)).length ∧
    ((∀ ybs : List Nat, getInt (pkMap (.Bool false)) (-3) = some (.Bytes ybs) →
        32 ≤ ybs.length →
        CredentialPublicKey.from_value (.Map (pkMap (.Bool false))) =
          .ok ⟨intFieldOrZero (.Integer 2), intFieldOrZero (.Integer (-7)),
               intFieldOrZero (.Integer 1),
               .Uncompressed ((List.replicate 32 7).take 32) (ybs.take 32)⟩) ∧
     (∀ b : Bool, getInt (pkMap (.Bool false)) (-3) = some (.Bool b) →
        CredentialPublicKey.from_value (.Map (pkMap (.Bool false))) =
          .ok ⟨intFieldOrZero (.Integer 2), intFieldOrZero (.Integer (-7)),
               intFieldOrZero (.Integer 1),
               .Compressed ((List.replicate 32 7).take 32)
                 (if b then ECDSA_Y_PREFIX_NEGATIVE else ECDSA_Y_PREFIX_POSITIVTE)⟩) ∧
     (ECDSA_Y_PREFIX_POSITIVTE = 2 ∧ ECDSA_Y_PREFIX_NEGATIVE = 3) ∧
     (∀ yv : Value, getInt (pkMap (.Bool false)) (-3) = some yv →
        valueIsBytes yv = false → valueIsBool yv = false →
        CredentialPublicKey.from_value (.Map (pkMap (.Bool false))) =
          .err (.Other "y coordinate missing")) ∧
     (getInt (pkMap (.Bool false)) (-3) = none →
        CredentialPublicKey.from_value (.Map (pkMap (.Bool false))) =
          .err (.Other "y coordinate missing"))) :=
  ⟨rfl, rfl, rfl, rfl, by simp,
   claim_C4 (pkMap (.Bool false)) (.Integer 2) (.Integer (-7)) (.Integer 1)
     (List.replicate 32 7) rfl rfl rfl rfl (by simp)⟩

/-- C7: for each of the key-type (1), algorithm (3) and curve (-1) entries
of the public-key document: an absent key fails with its missing-field
error (stated both per-field in lookup order and as a bare disjunction),
while a present key whose value is not an integer is read as 0 and
extraction continues to a successful result when the remaining entries are
well formed. -/
theorem claim_C7 :
    (∀ m, getInt m 1 = none →
      CredentialPublicKey.from_value (.Map m) = .err (.Other "Key type missing")) ∧
    (∀ m v1, getInt m 1 = some v1 → getInt m 3 = none →
      CredentialPublicKey.from_value (.Map m) = .err (.Other "algorithm missing")) ∧
    (∀ m v1 v3, getInt m 1 = some v1 → getInt m 3 = some v3 → getInt m (-1) = none →
      CredentialPublicKey.from_value (.Map m) = .err (.Other "curve missing")) ∧
    (∀ m, (getInt m 1 = none ∨ getInt m 3 = none ∨ getInt m (-1) = none) →
      ∃ s, CredentialPublicKey.from_value (.Map m) = .err (.Other s) ∧
        (s = "Key type missing" ∨ s = "algorithm missing" ∨ s = "curve missing")) ∧
    (∀ m v1 v3 vc xbs b, getInt m 1 = some v1 → getInt m 3 = some v3 →
      getInt m (-1) = some vc → getInt m (-2) = some (.Bytes xbs) → 32 ≤ xbs.length →
      getInt m (-3) = some (.Bool b) →
      CredentialPublicKey.from_value (.Map m) =
        .ok ⟨intFieldOrZero v1, intFieldOrZero v3, intFieldOrZero vc,
             .Compressed (xbs.take 32)
               (if b then ECDSA_Y_PREFIX_NEGATIVE else ECDSA_Y_PREFIX_POSITIVTE)⟩) ∧
    (∀ v : Value, (∀ i : Int, v ≠ .Integer i) → intFieldOrZero v = 0) := by
  refine ⟨?_, ?_, ?_, ?_, ?_, ?_⟩
  · intro m h1
    simp [CredentialPublicKey.from_value, h1]
  · intro m v1 h1 h3
    simp [CredentialPublicKey.from_value, h1, h3]
  · intro m v1 v3 h1 h3 hc
    simp [CredentialPublicKey.from_value, h1, h3, hc]
  · intro m hdisj
    cases e1 : getInt m 1 with
    | none =>
      exact ⟨"Key type missing", by simp [CredentialPublicKey.from_value, e1], Or.inl rfl⟩
    | some v1 =>
      cases e3 : getInt m 3 with
      | none =>
        exact ⟨"algorithm missing", by simp [CredentialPublicKey.from_value, e1, e3],
          Or.inr (Or.inl rfl)⟩
      | some v3 =>
        cases ec : getInt m (-1) with
        | none =>
          exact ⟨"curve missing", by simp [CredentialPublicKey.from_value, e1, e3, ec],
            Or.inr (Or.inr rfl)⟩
        | some vc =>
          rcases hdisj with hd | hd | hd <;> simp_all
  · intro m v1 v3 vc xbs b h1 h3 hc hx hxl hy
    simp [CredentialPublicKey.from_value, h1, h3, hc, hx, hxl, hy]
  · intro v hv
    cases v with
    | Integer i => exact absurd rfl (hv i)
    | Null => rfl
    | Bool b => rfl
    | Bytes bs => rfl
    | Text s => rfl
    | Map mm => rfl

/-- C7 witness: the empty map lacks the key-type entry and fails with its
missing-field error, and a non-integer value is coerced to 0. -/
theorem claim_C7_witness :
    CredentialPublicKey.from_value (.Map []) = .err (.Other "Key type missing") ∧
    intFieldOrZero .Null = 0 :=
  ⟨claim_C7.1 [] rfl,
   claim_C7.2.2.2.2.2 .Null (fun i h => Value.noConfusion h)⟩

/-- C10: a document value that is not a map is treated exactly like the
empty map: extraction fails with the key-type missing-field error
("Key type missing"), not with any shape or type error. -/
theorem claim_C10 (v : Value) (h : valueIsMap v = false) :
    CredentialPublicKey.from_value v = .err (.Other "Key type missing") ∧
    CredentialPublicKey.from_value v = CredentialPublicKey.from_value (.Map []) := by
  have hv : CredentialPublicKey.from_value v = .err (.Other "Key type missing") := by
    cases v with
    | Map m => simp [valueIsMap] at h
    | Null => rfl
    | Bool b => rfl
    | Integer i => rfl
    | Bytes bs => rfl
    | Text s => rfl
  have h2 : CredentialPublicKey.from_value (.Map []) = .err (.Other "Key type missing") := rfl
  exact ⟨hv, hv.trans h2.symm⟩

/-- C10 witness: the theorem evaluated at `Null`. -/
theorem claim_C10_witness :
    valueIsMap .Null = false ∧
    (CredentialPublicKey.from_value .Null = .err (.Other "Key type missing") ∧
     CredentialPublicKey.from_value .Null = CredentialPublicKey.from_value (.Map [])) :=
  ⟨rfl, claim_C10 .Null rfl⟩

/-- C9 (amended): whenever the outer document decodes but its `auth_data`
field is not a byte string, `AttestationObject::from_bytes` fails with the
error `Other` carrying the message "Cannot proceed without auth data"
(capital C — the source literal; the claim quotes it lowercase), and no
attestation object is returned. -/
theorem claim_C9 (outerDecode : List Nat → Option RawAttestationObject)
    (cborDecode : List Nat → Option Value) (raw : List Nat) (rao : RawAttestationObject)
    (hdec : outerDecode raw = some rao) (hnb : valueIsBytes rao.auth_data = false) :
    AttestationObject.from_bytes outerDecode cborDecode raw =
      .err (.Other "Cannot proceed without auth data") := by
  obtain ⟨av, fmtv, stv⟩ := rao
  simp only [AttestationObject.from_bytes, hdec]
  cases av with
  | Bytes bs => simp [valueIsBytes] at hnb
  | Null => rfl
  | Bool b => rfl
  | Integer i => rfl
  | Text s => rfl
  | Map mm => rfl

/-- C9 counterexample: at a concrete input whose outer document decodes with
a `Null` (non-byte-string) `authData`, the produced error message is
"Cannot proceed without auth data" with a capital C, so the claim's quoted
message "cannot proceed without auth data" is not the one produced. -/
theorem claim_C9_counterexample :
    AttestationObject.from_bytes outerDecodeNull (fun _ => none) [] =
      .err (.Other "Cannot proceed without auth data") ∧
    AttestationObject.from_bytes outerDecodeNull (fun _ => none) [] ≠
      .err (.Other "cannot proceed without auth data") := by
  constructor
  · rfl
  · intro hcon
    have h2 : Error.Other "Cannot proceed without auth data" =
        Error.Other "cannot proceed without auth data" := RunResult.err.inj hcon
    exact absurd (Error.Other.inj h2) (by decide)

/-- C9 witness: the amended theorem evaluated at the concrete decoder whose
outer document carries a `Null` authData. -/
theorem claim_C9_witness :
    outerDecodeNull [] = some ⟨.Null, "packed", ⟨-7, [], none, none⟩⟩ ∧
    valueIsBytes (RawAttestationObject.mk .Null "packed" ⟨-7, [], none, none⟩).auth_data =
      false ∧
    AttestationObject.from_bytes outerDecodeNull (fun _ => none) [] =
      .err (.Other "Cannot proceed without auth data") :=
  ⟨rfl, rfl, claim_C9 outerDecodeNull (fun _ => none) []
    ⟨.Null, "packed", ⟨-7, [], none, none⟩⟩ rfl rfl⟩
